import Mathlib

/-!
Verification development for the ctagz tag-file reader (src/ctagz.js).

The JavaScript source is shallowly embedded below.  JS strings are modelled
as Lean strings (a list of characters; all inputs exercised here stay in the
basic multilingual plane, where one JS UTF-16 code unit is one character),
JS numbers that hold integers are modelled as Int/Nat, and the JS NaN that
parseInt can produce is modelled by Option Int (none = NaN).  File bytes are
List Nat (each entry a byte value).  Mutation of the CTags object is modelled
by explicit state passing.
-/

/-- Model of isdigit from the source: d is between the characters 0 and 9. -/
def isdigit (c : Char) : Bool := '0' ≤ c ∧ c ≤ '9'

/-- JS parseInt(str, 10): skip leading whitespace, optional sign, then a
maximal digit run; no digits gives NaN, modelled as none. -/
def isJsSpace (c : Char) : Bool := c = ' ' ∨ c = '\t' ∨ c = '\n' ∨ c = '\r'

/-- Accumulate a decimal digit run into a natural number. -/
def digitsToNat : List Char → Nat → Nat
  | [], acc => acc
  | c :: rest, acc => digitsToNat rest (acc * 10 + (c.toNat - '0'.toNat))

/-- Model of JS parseInt(s, 10); none models NaN. -/
def parseIntJS (s : String) : Option Int :=
  let cs := s.data.dropWhile isJsSpace
  let signed : Bool × List Char :=
    match cs with
    | '-' :: r => (true, r)
    | '+' :: r => (false, r)
    | _ => (false, cs)
  let ds := signed.2.takeWhile isdigit
  if ds.isEmpty then none
  else some (if signed.1 then -(digitsToNat ds 0 : Int) else (digitsToNat ds 0 : Int))

/-- Helper for JS String.indexOf: scan a list from a running index. -/
def idxOfFromGo (c : Char) : List Char → Nat → Option Nat
  | [], _ => none
  | x :: rest, i => if x = c then some i else idxOfFromGo c rest (i + 1)

/-- Model of JS str.indexOf(c, start): index of the first occurrence of c at
or after position start, none when absent (JS returns -1). -/
def idxOfFrom (cs : List Char) (c : Char) (start : Nat) : Option Nat :=
  idxOfFromGo c (cs.drop start) start

/-- Model of JS str.substr(start, len) on a character list. -/
def sub (cs : List Char) (start len : Nat) : List Char :=
  (cs.drop start).take len

/-- The address part of a parsed tag entry.  lineNumber is Option Int because
the source stores the result of parseInt there, which can be NaN. -/
structure TagAddress where
  lineNumber : Option Int
  pattern : String

/-- A parsed tag line, mirroring the entry object built by _parseTagLine.
kind is Option String (null in the source); fields is the extension-field
map, an insertion-ordered association list with in-place overwrite. -/
structure TagEntry where
  fields : List (String × String)
  kind : Option String
  file : String
  fileScope : Bool
  name : String
  address : TagAddress
  valid : Bool

/-- The fresh entry object allocated at the top of _parseTagLine. -/
def emptyEntry : TagEntry :=
  { fields := []
    kind := none
    file := ""
    fileScope := false
    name := ""
    address := { lineNumber := some 0, pattern := "" }
    valid := false }

/-- JS object assignment fields[key] = value: overwrite in place, else append. -/
def setField : List (String × String) → String → String → List (String × String)
  | [], k, v => [(k, v)]
  | (k0, v0) :: rest, k, v =>
    if k0 = k then (k, v) :: rest else (k0, v0) :: setField rest k v

/-- Advance past a run of tab characters, as the inner while loop of
_parseExtensionFields does. -/
def skipTabs (cs : List Char) (pos : Nat) : Nat :=
  pos + ((cs.drop pos).takeWhile (· = '\t')).length

/-- One pass of the while loop of _parseExtensionFields.  The source loop
advances pos to splitPos on every iteration, so it runs at most length + 1
times; the fuel argument carries that bound to make the recursion structural. -/
def extFieldsLoop : Nat → List Char → Nat → TagEntry → TagEntry
  | 0, _, _, e => e
  | fuel + 1, cs, pos0, e =>
    if pos0 < cs.length then
      let pos := skipTabs cs pos0
      let splitPos := (idxOfFrom cs '\t' pos).getD cs.length
      let partPos :=
        match idxOfFrom cs ':' pos with
        | none => splitPos
        | some p => if splitPos < p then splitPos else p
      let e2 :=
        if partPos = splitPos then
          { e with kind := some (String.mk (sub cs pos (splitPos - pos))) }
        else
          let key := String.mk (sub cs pos (partPos - pos))
          let value := String.mk (sub cs (partPos + 1) (splitPos - partPos - 1))
          if key = "kind" then { e with kind := some value }
          else if key = "file" then { e with fileScope := true }
          else if key = "line" then
            { e with address := { e.address with lineNumber := parseIntJS value } }
          else { e with fields := setField e.fields key value }
      extFieldsLoop fuel cs splitPos e2
    else e

/-- Model of _parseExtensionFields(str, entry). -/
def parseExtensionFields (str : String) (e : TagEntry) : TagEntry :=
  extFieldsLoop (str.data.length + 1) str.data 0 e

/-- The pattern scan loop of _parseTagLine.  Arguments: the remaining
characters after the opening delimiter, the running position, the running
backslash count bsc, and the accumulated output.  Each backslash increments
bsc; on any other character with bsc positive the source emits bsc >>> 1
(that is, bsc / 2) literal backslashes followed by that character and resets
bsc - note this branch fires even when that character is the delimiter, so
the delimiter only terminates the pattern when bsc is zero.  Returns the
accumulated pattern and the delimiter position, or none when the remainder
ends without an unescaped delimiter. -/
def scanPattern (delim : Char) : List Char → Nat → Nat → String → Option (String × Nat)
  | [], _, _, _ => none
  | c :: rest, pos, bsc, acc =>
    if c = '\\' then scanPattern delim rest (pos + 1) (bsc + 1) acc
    else if 0 < bsc then
      scanPattern delim rest (pos + 1) 0
        (acc ++ String.mk (List.replicate (bsc / 2) '\\') ++ String.mk [c])
    else if c = delim then some (acc, pos)
    else scanPattern delim rest (pos + 1) 0 (acc ++ String.mk [c])

/-- Length of the leading digit run, as the while loop after parseInt in the
numeric-address branch computes. -/
def digitRun (pattern : List Char) : Nat :=
  (pattern.takeWhile isdigit).length

/-- The tail of _parseTagLine after the address was consumed at pos:
when the remainder continues with the two-character marker consisting of a
semicolon and a double quote (the source tests pattern.indexOf at pos),
parse everything after it as extension fields; then mark the entry valid. -/
def finishEntry (e : TagEntry) (pattern : List Char) (pos : Nat) : TagEntry :=
  let e2 :=
    if (pattern.drop pos).take 2 = [';', '"'] then
      parseExtensionFields (String.mk (pattern.drop (pos + 2))) e
    else e
  { e2 with valid := true }

/-- The address-parsing part of _parseTagLine, applied to the remainder of
the line after the second tab. -/
def parseAddress (entry2 : TagEntry) (pattern : List Char) : TagEntry :=
  match pattern with
  | [] => entry2
  | c :: rest =>
    if c = '/' ∨ c = '?' then
      match scanPattern c rest 1 0 "" with
      | none => entry2
      | some pr =>
        let entry3 := { entry2 with address := { entry2.address with pattern := pr.1 } }
        finishEntry entry3 pattern (pr.2 + 1)
    else if isdigit c then
      let entry3 :=
        { entry2 with address :=
          { entry2.address with lineNumber := parseIntJS (String.mk pattern) } }
      finishEntry entry3 pattern (digitRun pattern)
    else entry2

/-- Model of _parseTagLine(line): split at the first two tabs into name and
file, then parse the remainder as address plus optional extension fields. -/
def parseTagLine (line : String) : TagEntry :=
  let cs := line.data
  match idxOfFrom cs '\t' 0 with
  | none => emptyEntry
  | some nameSplit =>
    let entry1 := { emptyEntry with name := String.mk (sub cs 0 nameSplit) }
    match idxOfFrom cs '\t' (nameSplit + 1) with
    | none => entry1
    | some fileSplit =>
      let entry2 :=
        { entry1 with file := String.mk (sub cs (nameSplit + 1) (fileSplit - nameSplit - 1)) }
      parseAddress entry2 (cs.drop (fileSplit + 1))

/-!
The line stream reader.  The source reads fixed-size chunks into a persistent
1024-byte Buffer (allocUnsafe) with fs.read, then feeds THE WHOLE BUFFER -
not only the bytesRead bytes just read - through a Node StringDecoder for
utf8 and splits the decoded text on bare newline or carriage-return-newline.
The model therefore keeps the buffer (readBuffer) in the state, including
whatever bytes sat beyond the read count; the initial allocUnsafe contents
are a parameter of the constructor model.
-/

/-- A UTF-8 continuation byte: top two bits are 10. -/
def contByte (b : Nat) : Bool := b &&& 0xC0 = 0x80

/-- Declared length of a UTF-8 sequence from its lead byte; 1 for ASCII and
(as Node does for undecodable leads) for invalid bytes. -/
def seqLenRaw (b : Nat) : Nat :=
  if b < 0x80 then 1
  else if b &&& 0xE0 = 0xC0 then 2
  else if b &&& 0xF0 = 0xE0 then 3
  else if b &&& 0xF8 = 0xF0 then 4
  else 1

/-- The replacement character emitted for undecodable bytes. -/
def repl : Char := Char.ofNat 0xFFFD

/-- Assemble a code point from a 2-byte sequence. -/
def mkChar2 (b c1 : Nat) : Char :=
  Char.ofNat (((b &&& 0x1F) <<< 6) ||| (c1 &&& 0x3F))

/-- Assemble a code point from a 3-byte sequence. -/
def mkChar3 (b c1 c2 : Nat) : Char :=
  Char.ofNat (((b &&& 0x0F) <<< 12) ||| ((c1 &&& 0x3F) <<< 6) ||| (c2 &&& 0x3F))

/-- Assemble a code point from a 4-byte sequence. -/
def mkChar4 (b c1 c2 c3 : Nat) : Char :=
  Char.ofNat (((b &&& 0x07) <<< 18) ||| ((c1 &&& 0x3F) <<< 12) |||
    ((c2 &&& 0x3F) <<< 6) ||| (c3 &&& 0x3F))

/-- Number of trailing bytes that form a truncated multi-byte sequence and
must be carried to the next decoder write, as Node's StringDecoder buffers
them: look back up to three bytes for a lead byte whose declared length
exceeds the bytes available after it. -/
def incompleteSuffixLen (bs : List Nat) : Nat :=
  match bs.reverse with
  | [] => 0
  | b0 :: t0 =>
    if contByte b0 then
      match t0 with
      | [] => 0
      | b1 :: t1 =>
        if contByte b1 then
          match t1 with
          | [] => 0
          | b2 :: _ =>
            if contByte b2 then 0
            else if 3 < seqLenRaw b2 then 3 else 0
        else if 2 < seqLenRaw b1 then 2 else 0
    else if 1 < seqLenRaw b0 then 1 else 0

/-- Decode a byte list that carries no trailing truncated sequence; invalid
bytes become the replacement character.  The claims below only exercise
well-formed sequences, where this agrees with Node's decoder. -/
def decodeAllF : Nat → List Nat → List Char
  | 0, _ => []
  | _, [] => []
  | fuel + 1, b :: rest =>
    if b < 0x80 then Char.ofNat b :: decodeAllF fuel rest
    else if b &&& 0xE0 = 0xC0 then
      match rest with
      | c1 :: r1 =>
        if contByte c1 then mkChar2 b c1 :: decodeAllF fuel r1
        else repl :: decodeAllF fuel (c1 :: r1)
      | [] => [repl]
    else if b &&& 0xF0 = 0xE0 then
      match rest with
      | c1 :: c2 :: r2 =>
        if contByte c1 ∧ contByte c2 then mkChar3 b c1 c2 :: decodeAllF fuel r2
        else repl :: decodeAllF fuel (c1 :: c2 :: r2)
      | r => r.map (fun _ => repl) ++ [repl]
    else if b &&& 0xF8 = 0xF0 then
      match rest with
      | c1 :: c2 :: c3 :: r3 =>
        if contByte c1 ∧ contByte c2 ∧ contByte c3 then
          mkChar4 b c1 c2 c3 :: decodeAllF fuel r3
        else repl :: decodeAllF fuel (c1 :: c2 :: c3 :: r3)
      | r => r.map (fun _ => repl) ++ [repl]
    else repl :: decodeAllF fuel rest

/-- Decode a byte list; one unit of fuel per sequence always suffices. -/
def decodeAll (bs : List Nat) : List Char := decodeAllF bs.length bs

/-- Model of StringDecoder.write: prepend the carried bytes, hold back a
trailing truncated sequence as the new carry, decode the rest. -/
def decodeChunk (state chunk : List Nat) : List Char × List Nat :=
  let all := state ++ chunk
  let k := incompleteSuffixLen all
  (decodeAll (all.take (all.length - k)), all.drop (all.length - k))

/-- Split decoded text the way split on the regex matching an optional
carriage return followed by a newline does: a carriage-return-newline pair or
a bare newline separates lines; a lone carriage return stays in the text. -/
def splitLinesGo : List Char → List Char → List String
  | [], acc => [String.mk acc.reverse]
  | '\r' :: '\n' :: rest, acc => String.mk acc.reverse :: splitLinesGo rest []
  | '\n' :: rest, acc => String.mk acc.reverse :: splitLinesGo rest []
  | c :: rest, acc => splitLinesGo rest (c :: acc)

/-- Split a character list into lines (always at least one part). -/
def splitLines (cs : List Char) : List String := splitLinesGo cs []

/-- The file-level metadata record this.info. -/
structure TagInfo where
  format : Option Int
  sort : Option Int
  author : String
  name : String
  url : String
  version : String

def TAG_UNSORTED : Int := 0
def TAG_SORTED : Int := 1
def TAG_FOLDSORTED : Int := 2

/-- The initial this.info of the constructor. -/
def initialInfo : TagInfo :=
  { format := some 1
    sort := some TAG_UNSORTED
    author := ""
    name := ""
    url := ""
    version := "" }

/-- The CTags handle state.  file is the byte content behind the file
descriptor; readBuffer is the persistent read buffer (its length plays the
role of the source's 1024); size is Option Nat because this.size only exists
after init ran fstat (JS: comparing against the undefined size is false). -/
structure CTags where
  tagsFile : List String
  file : List Nat
  pos : Nat
  workingPos : Nat
  readBuffer : List Nat
  decoder : List Nat
  lines : List String
  shouldSkip : Bool
  initialised : Bool
  size : Option Nat
  info : TagInfo

/-- The constructor new CTags(tagsFile, fd): initBuf stands for the
allocUnsafe buffer, whose initial contents the source leaves unspecified. -/
def mkCTags (tagsFile : List String) (file : List Nat) (initBuf : List Nat) : CTags :=
  { tagsFile := tagsFile
    file := file
    pos := 0
    workingPos := 0
    readBuffer := initBuf
    decoder := []
    lines := []
    shouldSkip := false
    initialised := false
    size := none
    info := initialInfo }

/-- Model of _skipPartialUTF8(buffer, length): drop the run of leading
continuation bytes found among the first length bytes. -/
def leadingContCount : List Nat → Nat → Nat
  | b :: rest, n + 1 => if contByte b then leadingContCount rest n + 1 else 0
  | _, _ => 0

def skipPartialUTF8 (buffer : List Nat) (length : Nat) : List Nat :=
  buffer.drop (leadingContCount buffer length)

/-- The guard this.workingPos < this.size; false when size is still
undefined, as the JS comparison with undefined is. -/
def wpLtSize (s : CTags) : Bool :=
  match s.size with
  | some n => s.workingPos < n
  | none => false

/-- The line-queue update after a chunk decode: if lines already holds a
trailing fragment, concatenate it with the first new part, then append the
remaining parts. -/
def appendParts (lines parts : List String) : List String :=
  match lines.getLast? with
  | none => parts
  | some last => lines.dropLast ++ (last ++ parts.headD "") :: parts.tail

/-- One fs.read followed by the then-callback of _readTagLine: read up to
buffer-length bytes at workingPos into the front of the buffer (bytes past
the read count keep their previous, stale contents), optionally strip leading
continuation bytes after a seek, decode the WHOLE buffer, split, and queue. -/
def readChunk (s : CTags) : CTags :=
  let br := min s.readBuffer.length (s.file.length - s.workingPos)
  let newBuf := (s.file.drop s.workingPos).take br ++ s.readBuffer.drop br
  let decBuf := if s.shouldSkip then skipPartialUTF8 newBuf br else newBuf
  let dec := decodeChunk s.decoder decBuf
  let parts := splitLines dec.1
  { s with
    workingPos := s.workingPos + br
    readBuffer := newBuf
    shouldSkip := false
    decoder := dec.2
    lines := appendParts s.lines parts }

/-- The drain loop at the top of readAtLeastALine: while more than one line
is buffered, shift; return the first truthy (non-empty) one. -/
def drainLines : List String → Option String × List String
  | [] => (none, [])
  | [x] => (none, [x])
  | x :: y :: rest => if x ≠ "" then (some x, y :: rest) else drainLines (y :: rest)

/-- Model of _readTagLine / readAtLeastALine.  The fuel argument bounds the
number of chunk reads; every read advances workingPos by at least one byte
(the source buffer is 1024 bytes long and reads happen only while the cursor
is below size), so file length + 1 units of fuel always suffice.  The
fuel-exhausted result stands for the source diverging, which a positive
buffer length makes unreachable. -/
def readTagLineF : Nat → CTags → Option String × CTags
  | 0, s => (none, s)
  | fuel + 1, s =>
    match drainLines s.lines with
    | (some l, rest) => (some l, { s with lines := rest })
    | (none, rest) =>
      if wpLtSize s then
        readTagLineF fuel (readChunk { s with lines := rest })
      else
        match rest with
        | x :: _ => (some x, { s with lines := [] })
        | [] => (none, { s with lines := [] })

/-- Model of _readTagLine(). -/
def readTagLine (s : CTags) : Option String × CTags :=
  readTagLineF (s.file.length + 1) s

/-- Model of _readTagLineSeek(pos): clamp, reset both cursors, flush decoder
and buffered lines, arm the skip flag, then read twice and surface the second
line.  The source clamps against this.size; seeking an uninitialised handle
(size undefined, NaN arithmetic in JS) is outside this model, which uses 0. -/
def readTagLineSeek (s : CTags) (p : Int) : Option String × CTags :=
  let sizeN := s.size.getD 0
  let wp := (min (max p 0) (sizeN : Int)).toNat
  let s1 :=
    { s with
      pos := wp
      workingPos := wp
      decoder := []
      lines := []
      shouldSkip := true }
  let r1 := readTagLine s1
  readTagLine r1.2

/-- The switch statement of _readPseudoTags applied to one parsed entry. -/
def applyPseudo (info : TagInfo) (e : TagEntry) : TagInfo :=
  if e.name = "!_TAG_FILE_SORTED" then { info with sort := parseIntJS e.file }
  else if e.name = "!_TAG_FILE_FORMAT" then { info with format := parseIntJS e.file }
  else if e.name = "!_TAG_PROGRAM_AUTHOR" then { info with author := e.file }
  else if e.name = "!_TAG_PROGRAM_NAME" then { info with name := e.file }
  else if e.name = "!_TAG_PROGRAM_URL" then { info with url := e.file }
  else if e.name = "!_TAG_PROGRAM_VERSION" then { info with version := e.file }
  else info

/-- The pseudo-tag prefix test l.startsWith of the two characters bang and
underscore (a falsy, empty line fails it as well, as in the source). -/
def startsWithPseudo (l : String) : Bool :=
  match l.data with
  | '!' :: '_' :: _ => true
  | _ => false

/-- The tagReader loop of _readPseudoTags: keep reading while lines carry the
pseudo-tag prefix, folding each into info; stop on the first other line,
which stays consumed.  Each iteration consumes one returned line; the fuel
below bounds how many lines the reader can ever hand out. -/
def readPseudoTagsLoop : Nat → CTags → CTags
  | 0, s => s
  | fuel + 1, s =>
    let r := readTagLine s
    match r.1 with
    | some l =>
      if startsWithPseudo l then
        readPseudoTagsLoop fuel { r.2 with info := applyPseudo r.2.info (parseTagLine l) }
      else r.2
    | none => r.2

/-- An upper bound on the number of lines the reader can produce: every
chunk read advances the cursor and queues at most buffer length + 3 parts. -/
def pseudoFuel (s : CTags) : Nat :=
  s.file.length * (s.readBuffer.length + 4) + s.lines.length + 2

/-- Model of _readPseudoTags(): run the loop, then (the finally block) reset
workingPos to 0.  Note the buffered lines and decoder state are NOT reset. -/
def readPseudoTags (s : CTags) : CTags :=
  let s2 := readPseudoTagsLoop (pseudoFuel s) s
  { s2 with workingPos := 0 }

/-- Model of init(): record the fstat size, load pseudo tags, set the flag.
The open-by-path branch is plumbing (the model's fd is the file field). -/
def initCTags (s : CTags) : CTags :=
  let s1 := { s with size := some s.file.length }
  let s2 := readPseudoTags s1
  { s2 with initialised := true }

/-- Read every line the handle will produce, in order (for the theorems
below; same fuel bound as the pseudo-tag loop). -/
def readAllLinesF : Nat → CTags → List String
  | 0, _ => []
  | fuel + 1, s =>
    match readTagLine s with
    | (none, _) => []
    | (some l, s2) => l :: readAllLinesF fuel s2

def readAllLines (s : CTags) : List String :=
  readAllLinesF (pseudoFuel s) s

/-- Byte list of an ASCII string (all concrete files below are ASCII). -/
def strBytes (s : String) : List Nat := s.data.map Char.toNat

/-- A string of n NUL characters (what stale zero bytes decode to). -/
def nulStr (n : Nat) : String := String.mk (List.replicate n (Char.ofNat 0))

/-- Reference semantics named by the spec for chunk-boundary invariance:
decode the entire file as one chunk and split on line terminators. -/
def wholeFileLines (bytes : List Nat) : List String :=
  splitLines (decodeChunk [] bytes).1

/-- A fresh sequential reader over the given bytes with the given buffer
length, size already known, cursor at 0. -/
def freshReader (bytes : List Nat) (bufLen : Nat) : CTags :=
  { mkCTags [] bytes (List.replicate bufLen 0) with size := some bytes.length }

/-!
The tag file locator findCTagsFile.  The filesystem collaborator (readdir,
open, stat) is abstracted as a record of functions; the minimatch glob test
is an external library and is abstracted as a Boolean predicate on names.
Paths are lists of components from the root, so path.dirname is dropLast and
dirname leaves exactly the root unchanged.  A directory-listing failure is
the rejection of the readdirAsync promise, modelled as Except.error; an open
failure is openFile returning none (the source catches it and moves on).
-/

/-- The filesystem collaborator: list a directory (none = readdir failure)
and open a file in a directory (none = open failure; some gives the bytes
behind the resulting descriptor). -/
structure FSModel where
  listDir : List String → Option (List String)
  openFile : List String → String → Option (List Nat)

/-- JS default Array.sort comparison: lexicographic by code unit. -/
def listCharLe : List Char → List Char → Bool
  | [], _ => true
  | _ :: _, [] => false
  | a :: as, b :: bs => if a < b then true else if b < a then false else listCharLe as bs

def strLe (a b : String) : Bool := listCharLe a.data b.data

def insertStr (x : String) : List String → List String
  | [] => [x]
  | y :: ys => if strLe x y then x :: y :: ys else y :: insertStr x ys

/-- Model of files.sort(): ascending lexicographic order. -/
def sortStrings : List String → List String
  | [] => []
  | x :: xs => insertStr x (sortStrings xs)

/-- Model of the Promise.reduce over the sorted matches: carry the first
successfully opened handle through; an open failure leaves the accumulator
unset and the next candidate is tried.  A successful open constructs
new CTags(matchPath, fd); g is the fresh allocUnsafe buffer contents. -/
def openStep (fs : FSModel) (g : List Nat) (dir : List String)
    (acc : Option CTags) (m : String) : Option CTags :=
  match acc with
  | some h => some h
  | none =>
    match fs.openFile dir m with
    | some bytes => some (mkCTags (dir ++ [m]) bytes g)
    | none => none

def firstOpen (fs : FSModel) (g : List Nat) (dir : List String) (matched : List String) :
    Option CTags :=
  matched.foldl (openStep fs g dir) none

/-- Model of the inner ctagsFinder recursion of findCTagsFile.  The fuel
bounds the ascent: every recursive call shortens the path by one component,
so path length + 1 units always suffice and the fuel-out branch is
unreachable from the wrapper below. -/
def ctagsFinderF : Nat → FSModel → (String → Bool) → List Nat → List String →
    Except Unit (Option CTags)
  | 0, _, _, _, _ => .ok none
  | fuel + 1, fs, pat, g, dir =>
    match fs.listDir dir with
    | none => .error ()
    | some files =>
      match firstOpen fs g dir (sortStrings (files.filter pat)) with
      | some h => .ok (some h)
      | none =>
        if dir.dropLast = dir then .ok none
        else ctagsFinderF fuel fs pat g dir.dropLast

/-- Model of ctagsFinder(tagPath). -/
def ctagsFinder (fs : FSModel) (pat : String → Bool) (g : List Nat)
    (dir : List String) : Except Unit (Option CTags) :=
  ctagsFinderF (dir.length + 1) fs pat g dir

/-- Model of findCTagsFile(searchPath, tagFilePattern): resolve the start
path (isFile says what the stat reported: a file starts the search in its
containing directory) and run the finder. -/
def findCTagsFile (fs : FSModel) (pat : String → Bool) (g : List Nat)
    (searchPath : List String) (isFile : Bool) : Except Unit (Option CTags) :=
  ctagsFinder fs pat g (if isFile then searchPath.dropLast else searchPath)

/-!
Spec-side formulation of the locator, following the words of the spec: the
search visits the ancestor chain of the start directory one level at a time,
outward, ending at the root; at each level it opens the sorted matches in
order and returns the first success; a listing failure aborts.
-/

/-- Spec-side: try to open each name in order, first success wins. -/
def specOpenFirst (fs : FSModel) (g : List Nat) (dir : List String) :
    List String → Option CTags
  | [] => none
  | m :: rest =>
    match fs.openFile dir m with
    | some bytes => some (mkCTags (dir ++ [m]) bytes g)
    | none => specOpenFirst fs g dir rest

/-- Spec-side: the ancestor chain of a directory, the directory itself
first, the root last (fuel-structured; length + 1 suffices). -/
def dirChainF : Nat → List String → List (List String)
  | 0, _ => []
  | fuel + 1, d => d :: (if d.isEmpty then [] else dirChainF fuel d.dropLast)

def dirChain (d : List String) : List (List String) := dirChainF (d.length + 1) d

/-- Spec-side: search the given chain of directories in order; a listing
failure aborts, a level with an openable match returns it, an exhausted
chain reports not found. -/
def specSearch (fs : FSModel) (pat : String → Bool) (g : List Nat) :
    List (List String) → Except Unit (Option CTags)
  | [] => .ok none
  | d :: rest =>
    match fs.listDir d with
    | none => .error ()
    | some files =>
      match specOpenFirst fs g d (sortStrings (files.filter pat)) with
      | some h => .ok (some h)
      | none => specSearch fs pat g rest

/-!
Concrete scenario inputs used by the claim theorems.
-/

/-- The example tag line of C1 (braces written as escapes). -/
def c1line : String := "myFunc\tfoo.c\t/^void myFunc() \x7b$/;\"\tkind:f\tline:42"

/-- A tag line whose address is the doubled-escaped vim pattern of C2. -/
def c2lineDoubled : String := "x\ty\t/foo\\\\/bar\\\\\\\\baz/"

/-- The same pattern with ordinary single escaping. -/
def c2lineSingle : String := "x\ty\t/foo\\/bar\\\\baz/"

/-- The pseudo-tag header file of C4 (45 bytes). -/
def file4bytes : List Nat :=
  strBytes "!_TAG_FILE_SORTED\t1\t//comment\nmyFunc\tfoo.c\t1\n"

/-- The C4 handle after init ran on that file, with the source's 1024-byte
buffer; the unspecified allocUnsafe contents are taken to be zero bytes. -/
def s4state : CTags := initCTags (mkCTags ["tags"] file4bytes (List.replicate 1024 0))

/-- The three-line file of C5 (9 bytes). -/
def file5bytes : List Nat := strBytes "ab\ncd\nef\n"

/-- The C5 handle after init, buffer 1024, allocUnsafe taken as zeros. -/
def s5state : CTags := initCTags (mkCTags ["tags"] file5bytes (List.replicate 1024 0))

/-- The C6 file: a carriage-return-newline pair that a chunk size of two
splits across a chunk boundary. -/
def file6bytes : List Nat := strBytes "a\r\nb"

/-- A filesystem with one openable tags file in directory a. -/
def fs9 : FSModel :=
  { listDir := fun d => if d = ["a"] then some ["tags"] else some []
    openFile := fun d m => if d = ["a"] ∧ m = "tags" then some [] else none }

/-- The handle fs9 yields: exactly what new CTags constructs. -/
def c9handle : CTags := mkCTags ["a", "tags"] [] []

/-- A directory holding both TAGS and tags where opening TAGS fails. -/
def fsOpenFail : FSModel :=
  { listDir := fun d => if d = ["a"] then some ["TAGS", "tags"] else some []
    openFile := fun d m => if d = ["a"] ∧ m = "tags" then some [] else none }

/-- A tree where the starting directory's candidate fails to open and the
parent's candidate opens. -/
def fsAncestor : FSModel :=
  { listDir := fun d =>
      if d = ["a", "b"] then some ["tags"]
      else if d = ["a"] then some ["tags"] else some []
    openFile := fun d m => if d = ["a"] ∧ m = "tags" then some [] else none }

/-- A filesystem whose directory listing always fails. -/
def fsNoList : FSModel := { listDir := fun _ => none, openFile := fun _ _ => none }

/-- A one-element pending line at end of stream (for the C10 witness). -/
def c10state : CTags := { mkCTags [] [] [] with lines := [""], size := some 0 }

/-!
Helper lemmas.
-/

theorem foldl_openStep_some (fs : FSModel) (g : List Nat) (dir : List String)
    (h : CTags) : ∀ ms : List String, ms.foldl (openStep fs g dir) (some h) = some h := by
  intro ms
  induction ms with
  | nil => rfl
  | cons m rest ih => simpa [List.foldl_cons, openStep] using ih

theorem firstOpen_eq_specOpenFirst (fs : FSModel) (g : List Nat) (dir : List String) :
    ∀ ms : List String, firstOpen fs g dir ms = specOpenFirst fs g dir ms := by
  intro ms
  induction ms with
  | nil => rfl
  | cons m rest ih =>
    rw [firstOpen, specOpenFirst, List.foldl_cons]
    cases ho : fs.openFile dir m with
    | some bytes => simp [openStep, ho, foldl_openStep_some]
    | none => simpa [openStep, ho] using ih

theorem dropLast_eq_self_iff (l : List String) : l.dropLast = l ↔ l = [] := by
  constructor
  · intro h
    cases l with
    | nil => rfl
    | cons x xs =>
      have hlen := congrArg List.length h
      simp [List.length_dropLast] at hlen
  · intro h
    subst h
    rfl

theorem finderF_eq_specSearch (fs : FSModel) (pat : String → Bool) (g : List Nat) :
    ∀ fuel dir, dir.length < fuel →
      ctagsFinderF fuel fs pat g dir = specSearch fs pat g (dirChainF fuel dir) := by
  intro fuel
  induction fuel with
  | zero => intro dir h; omega
  | succ fuel ih =>
    intro dir h
    rw [ctagsFinderF, dirChainF, specSearch]
    cases hl : fs.listDir dir with
    | none => rfl
    | some files =>
      simp only [firstOpen_eq_specOpenFirst]
      cases ho : specOpenFirst fs g dir (sortStrings (files.filter pat)) with
      | some hh => rfl
      | none =>
        simp only []
        cases dir with
        | nil => rfl
        | cons x xs =>
          have hne : (x :: xs).dropLast ≠ x :: xs := by
            intro e
            exact absurd ((dropLast_eq_self_iff _).mp e) (by simp)
          rw [if_neg hne]
          have hlt : (x :: xs).dropLast.length < fuel := by
            simp only [List.length_dropLast, List.length_cons] at h ⊢
            omega
          rw [ih (x :: xs).dropLast hlt]
          simp [List.isEmpty]

theorem specSearch_error (fs : FSModel) (pat : String → Bool) (g : List Nat) :
    ∀ chain, specSearch fs pat g chain = .error () →
      ∃ d ∈ chain, fs.listDir d = none := by
  intro chain
  induction chain with
  | nil => intro h; simp [specSearch] at h
  | cons d rest ih =>
    intro h
    rw [specSearch] at h
    cases hl : fs.listDir d with
    | none => exact ⟨d, List.mem_cons_self d rest, hl⟩
    | some files =>
      rw [hl] at h
      simp only [] at h
      cases ho : specOpenFirst fs g d (sortStrings (files.filter pat)) with
      | some hh => rw [ho] at h; simp at h
      | none =>
        rw [ho] at h
        simp only [] at h
        obtain ⟨e, hm, hn⟩ := ih h
        exact ⟨e, List.mem_cons_of_mem d hm, hn⟩

theorem specOpenFirst_fields (fs : FSModel) (g : List Nat) (dir : List String) :
    ∀ ms h, specOpenFirst fs g dir ms = some h →
      h.initialised = false ∧ h.size = none ∧ h.info = initialInfo ∧
        h.pos = 0 ∧ h.workingPos = 0 := by
  intro ms
  induction ms with
  | nil => intro h hh; simp [specOpenFirst] at hh
  | cons m rest ih =>
    intro h hh
    rw [specOpenFirst] at hh
    cases ho : fs.openFile dir m with
    | some bytes =>
      rw [ho] at hh
      injection hh with hh
      subst hh
      exact ⟨rfl, rfl, rfl, rfl, rfl⟩
    | none =>
      rw [ho] at hh
      exact ih h hh

theorem specSearch_ok_fields (fs : FSModel) (pat : String → Bool) (g : List Nat) :
    ∀ chain h, specSearch fs pat g chain = .ok (some h) →
      h.initialised = false ∧ h.size = none ∧ h.info = initialInfo ∧
        h.pos = 0 ∧ h.workingPos = 0 := by
  intro chain
  induction chain with
  | nil => intro h hh; simp [specSearch] at hh
  | cons d rest ih =>
    intro h hh
    rw [specSearch] at hh
    cases hl : fs.listDir d with
    | none => rw [hl] at hh; simp at hh
    | some files =>
      rw [hl] at hh
      simp only [] at hh
      cases ho : specOpenFirst fs g d (sortStrings (files.filter pat)) with
      | some hh2 =>
        rw [ho] at hh
        simp only [Except.ok.injEq, Option.some.injEq] at hh
        subst hh
        exact specOpenFirst_fields fs g d _ _ ho
      | none =>
        rw [ho] at hh
        exact ih h hh

theorem drainLines_some_ne : ∀ ls l rest, drainLines ls = (some l, rest) → l ≠ "" := by
  intro ls
  induction ls with
  | nil => intro l rest h; simp [drainLines] at h
  | cons x tail ih =>
    intro l rest h
    cases tail with
    | nil => simp [drainLines] at h
    | cons y t =>
      rw [drainLines] at h
      split at h
      · injection h with h1 h2
        injection h1 with h1
        subst h1
        assumption
      · exact ih l rest h

theorem wpLtSize_setLines (s : CTags) (ls : List String) :
    wpLtSize { s with lines := ls } = wpLtSize s := rfl

theorem readTagLineF_empty : ∀ fuel s s', readTagLineF fuel s = (some "", s') →
    s'.lines = [] ∧ wpLtSize s' = false := by
  intro fuel
  induction fuel with
  | zero => intro s s' h; simp [readTagLineF] at h
  | succ fuel ih =>
    intro s s' h
    rw [readTagLineF] at h
    split at h
    next l rest heq =>
      injection h with h1 h2
      injection h1 with h1
      exact absurd h1 (drainLines_some_ne s.lines l rest heq)
    next rest heq =>
      split at h
      · exact ih _ s' h
      · split at h
        next x xs =>
          injection h with h1 h2
          subst h2
          refine ⟨rfl, ?_⟩
          rw [wpLtSize_setLines]
          rename_i hcond _
          exact Bool.not_eq_true _ ▸ (by simpa using hcond)
        next => simp at h

theorem readTagLineF_stuck (fuel : Nat) (s : CTags) (h1 : s.lines = [])
    (h2 : wpLtSize s = false) : (readTagLineF fuel s).1 = none := by
  cases fuel with
  | zero => rfl
  | succ fuel => simp [readTagLineF, h1, drainLines, h2]

/-!
Claim theorems.
-/

set_option maxRecDepth 200000

/-- C1: the single input line with name myFunc, file foo.c, the search
pattern address, and extension fields kind:f and line:42 parses to an entry
with name myFunc, file foo.c, the pattern text between the delimiters, kind
f, line number 42 (the extension field overriding the default), and
valid true. -/
theorem claim_C1_parse_example :
    (parseTagLine c1line).name = "myFunc" ∧
    (parseTagLine c1line).file = "foo.c" ∧
    (parseTagLine c1line).address.pattern = "^void myFunc() \x7b$" ∧
    (parseTagLine c1line).kind = some "f" ∧
    (parseTagLine c1line).address.lineNumber = some 42 ∧
    (parseTagLine c1line).valid = true := by decide

/-- C2 counterexample: the doubled-escaped source pattern of the claim
parses to a pattern text different from the claimed foo, slash, bar,
backslash, baz - the code emits bsc / 2 backslashes before an escaped
delimiter and before an escaped character, keeping one backslash before the
slash and two before baz. -/
theorem claim_C2_counterexample :
    (parseTagLine c2lineDoubled).valid = true ∧
    (parseTagLine c2lineDoubled).address.pattern ≠ "foo/bar\\baz" := by decide

/-- C2 amended: the delimiter terminates the pattern only while the running
backslash count is zero; a delimiter seen with a positive count is literal
and is emitted preceded by count / 2 backslashes, like any other character
after backslashes.  Hence the doubled-escaped source pattern yields the text
foo backslash slash bar backslash backslash baz, while the single-escaped
form of the same pattern yields the claimed foo/bar backslash baz. -/
theorem claim_C2_amended :
    (parseTagLine c2lineDoubled).address.pattern = "foo\\/bar\\\\baz" ∧
    (parseTagLine c2lineSingle).address.pattern = "foo/bar\\baz" ∧
    (parseTagLine c2lineDoubled).valid = true ∧
    (parseTagLine c2lineSingle).valid = true := by decide

/-- C3 counterexample: a line of two tabs and a digit parses to a VALID
entry whose name and file are both empty, refuting the claim that valid
entries always carry a non-empty name and file. -/
theorem claim_C3_counterexample :
    (parseTagLine "\t\t1").valid = true ∧
    (parseTagLine "\t\t1").name = "" ∧
    (parseTagLine "\t\t1").file = "" := by decide

/-- C3 amended: parseTagLine is total by construction (it is a Lean
function) and a valid result still certifies the structure of the line - the
line contains a first tab and a second tab after it, from which name and
file were taken - but it does NOT guarantee that name or file is non-empty. -/
theorem claim_C3_amended (line : String) (h : (parseTagLine line).valid = true) :
    ∃ i j, idxOfFrom line.data '\t' 0 = some i ∧
      idxOfFrom line.data '\t' (i + 1) = some j := by
  simp only [parseTagLine] at h
  cases h1 : idxOfFrom line.data '\t' 0 with
  | none =>
    rw [h1] at h
    simp [emptyEntry] at h
  | some i =>
    rw [h1] at h
    simp only [] at h
    cases h2 : idxOfFrom line.data '\t' (i + 1) with
    | none =>
      rw [h2] at h
      simp [emptyEntry] at h
    | some j => exact ⟨i, j, rfl, h2⟩

/-- Witness for the C3 amended theorem at a concrete valid line. -/
theorem claim_C3_amended_witness :
    ∃ i j, idxOfFrom ("a\tb\t1").data '\t' 0 = some i ∧
      idxOfFrom ("a\tb\t1").data '\t' (i + 1) = some j :=
  claim_C3_amended "a\tb\t1" (by decide)

/-- C4, code bug: on the pseudo-tag header file followed by one normal
entry, _readPseudoTags does set the sort mode to sorted (1) and does reset
workingPos to byte 0 - but the next raw line read does NOT return the
pseudo-tag line: the source decodes the entire 1024-byte read buffer, not
just the bytes the read filled, so the stale bytes after the 45-byte file
(taken as zeros here, 979 NUL characters once decoded) were left buffered as
a pending line and are concatenated in front of the re-read pseudo-tag line. -/
theorem claim_C4_code_eval :
    s4state.info.sort = some TAG_SORTED ∧
    s4state.workingPos = 0 ∧
    (readTagLine s4state).1 = some (nulStr 979 ++ "!_TAG_FILE_SORTED\t1\t//comment") ∧
    nulStr 979 ++ "!_TAG_FILE_SORTED\t1\t//comment" ≠ "!_TAG_FILE_SORTED\t1\t//comment" := by
  decide

/-- C5, code bug: seeking the initialised three-line handle to byte offset 7
and reading twice returns the line cd, which starts at byte 3, BEFORE the
seek offset - the stale bytes of the read buffer (filled when init read the
file from byte 0) follow the two freshly read bytes into the decoder, so old
data reappears after the seek.  Sequential reading of a fresh handle shows
cd as the second of its lines (the final line is the decoded stale tail). -/
theorem claim_C5_code_eval :
    (readTagLineSeek s5state 7).1 = some "cd" ∧
    readAllLines (freshReader file5bytes 1024) = ["ab", "cd", "ef", nulStr 1015] ∧
    wholeFileLines file5bytes = ["ab", "cd", "ef", ""] := by decide

/-- C6, code bug: with chunk size 2 the carriage-return-newline terminator
of the file is split across a chunk boundary; the first chunk's trailing
carriage return survives in the buffered fragment, so chunked reading yields
the line a-carriage-return where decoding the file as one chunk yields a. -/
theorem claim_C6_code_eval :
    readAllLines (freshReader file6bytes 2) = ["a\r", "b"] ∧
    wholeFileLines file6bytes = ["a", "b"] ∧
    readAllLines (freshReader file6bytes 2) ≠ wholeFileLines file6bytes := by decide

/-- C7: the locator is exactly the spec-side search of the ancestor chain of
the resolved start directory, one level at a time outward, ending at the
root: at each level the entries matching the pattern are sorted ascending
and opened in order, the first success is returned, and exhausting the chain
reports not found.  In particular TAGS sorts (and is therefore attempted)
before tags. -/
theorem claim_C7_search_order :
    (∀ (fs : FSModel) (pat : String → Bool) (g : List Nat)
        (p : List String) (isFile : Bool),
      findCTagsFile fs pat g p isFile =
        specSearch fs pat g (dirChain (if isFile then p.dropLast else p))) ∧
    sortStrings ["tags", "TAGS"] = ["TAGS", "tags"] := by
  refine ⟨fun fs pat g p isFile => ?_, by decide⟩
  exact finderF_eq_specSearch fs pat g _ _ (Nat.lt_succ_self _)

/-- C8: error tiers of the locator.  An error result can only come from a
directory-listing failure somewhere on the searched chain (so an open
failure alone never aborts), a listing failure at the start directory
immediately propagates as an error, and two concrete runs show an open
failure being survived: within one directory the next sorted candidate is
opened, and across levels the parent directory's candidate is opened. -/
theorem claim_C8_error_tiers :
    (∀ (fs : FSModel) (pat : String → Bool) (g : List Nat) (dir : List String),
      ctagsFinder fs pat g dir = .error () →
        ∃ d ∈ dirChain dir, fs.listDir d = none) ∧
    (∀ (fs : FSModel) (pat : String → Bool) (g : List Nat) (dir : List String),
      fs.listDir dir = none → ctagsFinder fs pat g dir = .error ()) ∧
    ctagsFinder fsOpenFail (fun _ => true) [] ["a"] =
      .ok (some (mkCTags ["a", "tags"] [] [])) ∧
    ctagsFinder fsAncestor (fun _ => true) [] ["a", "b"] =
      .ok (some (mkCTags ["a", "tags"] [] [])) := by
  refine ⟨?_, ?_, rfl, rfl⟩
  · intro fs pat g dir h
    rw [ctagsFinder, finderF_eq_specSearch fs pat g _ _ (Nat.lt_succ_self _)] at h
    exact specSearch_error fs pat g _ h
  · intro fs pat g dir h
    rw [ctagsFinder, ctagsFinderF, h]

/-- Witness for C8 at a filesystem whose listing always fails. -/
theorem claim_C8_witness :
    ctagsFinder fsNoList (fun _ => true) [] ["a"] = .error () ∧
    ∃ d ∈ dirChain ["a"], fsNoList.listDir d = none := by
  have h2 := claim_C8_error_tiers.2.1 fsNoList (fun _ => true) [] ["a"] rfl
  exact ⟨h2, claim_C8_error_tiers.1 fsNoList (fun _ => true) [] ["a"] h2⟩

/-- C9 counterexample: the locator returns the bare constructor result of
new CTags - the handle fs9 yields has initialised false, no size, and the
default metadata, refuting the claim that returned handles are initialised. -/
theorem claim_C9_counterexample :
    ctagsFinder fs9 (fun _ => true) [] ["a"] = .ok (some c9handle) ∧
    c9handle.initialised = false ∧
    c9handle.size = none ∧
    c9handle.info = initialInfo := ⟨rfl, rfl, rfl, rfl⟩

/-- C9 amended: every handle findCTagsFile returns successfully is exactly a
freshly constructed, NOT yet initialised handle: its initialised flag is
false, its size is unknown, its metadata is the default, and both cursors
are 0; the caller must run init() itself. -/
theorem claim_C9_amended (fs : FSModel) (pat : String → Bool) (g : List Nat)
    (p : List String) (isFile : Bool) (h : CTags)
    (hok : findCTagsFile fs pat g p isFile = .ok (some h)) :
    h.initialised = false ∧ h.size = none ∧ h.info = initialInfo ∧
      h.pos = 0 ∧ h.workingPos = 0 := by
  rw [findCTagsFile, ctagsFinder,
    finderF_eq_specSearch fs pat g _ _ (Nat.lt_succ_self _)] at hok
  exact specSearch_ok_fields fs pat g _ h hok

/-- Witness for the C9 amended theorem on the concrete filesystem fs9. -/
theorem claim_C9_amended_witness :
    c9handle.initialised = false ∧ c9handle.size = none ∧
      c9handle.info = initialInfo ∧ c9handle.pos = 0 ∧ c9handle.workingPos = 0 :=
  claim_C9_amended fs9 (fun _ => true) [] ["a"] false c9handle rfl

/-- C10: _readTagLine never surfaces an empty line while input remains:
whenever a read returns the empty string, the post state has no buffered
lines left and no unread bytes (so the empty string can only be the single
final buffered fragment at end of stream), and every subsequent read yields
end of stream. -/
theorem claim_C10_no_empty_lines (s s' : CTags)
    (h : readTagLine s = (some "", s')) :
    s'.lines = [] ∧ wpLtSize s' = false ∧ (readTagLine s').1 = none := by
  have h2 := readTagLineF_empty (s.file.length + 1) s s' h
  exact ⟨h2.1, h2.2, readTagLineF_stuck _ s' h2.1 h2.2⟩

/-- Witness for C10 at a handle holding one empty buffered fragment at end
of stream. -/
theorem claim_C10_witness :
    ({ c10state with lines := [] } : CTags).lines = [] ∧
    wpLtSize { c10state with lines := [] } = false ∧
    (readTagLine { c10state with lines := [] }).1 = none :=
  claim_C10_no_empty_lines c10state { c10state with lines := [] } rfl
